import Mathlib

/-!
# Verification of the rscdk chain serialization structs

A shallow embedding of `crates/chain/src/structs.rs`: the `Packer`
contract (`size` / `pack` / `unpack`) for checksums, public keys,
signatures, time points and the producer-authority composites.

Bytes are modelled as `Nat` values below 256; a packed buffer is a
`List Nat`.  `pack` produces the byte list the Rust encoder would
receive (the bytes-written count is its length); `unpack` returns
`Option (value × consumed)`, `none` standing for the fatal `check`
abort of the host environment.

The integer, varint, account-name, string and hex primitives live in
sibling crates files (`serializer.rs`, `varint.rs`, `name.rs`,
`utils.rs`) that are outside the sources at hand; they are modelled
from the spec, as marked on each such definition.
-/

set_option maxRecDepth 4096

namespace RsCdk

/-- Modelled from the spec: fixed-width integers pack as their natural
little-endian byte width (`serializer.rs` primitive `pack`). -/
def packLE : Nat → Nat → List Nat
  | 0, _ => []
  | w + 1, n => n % 256 :: packLE w (n / 256)

/-- Little-endian value of a byte list (first byte least significant). -/
def valLE : List Nat → Nat
  | [] => 0
  | b :: bs => b + 256 * valLE bs

/-- Modelled from the spec: fixed-width integer `unpack` checks the
buffer holds at least the fixed width and fails fatally otherwise
(`serializer.rs` primitive `unpack`). -/
def unpackLE (w : Nat) (raw : List Nat) : Option (Nat × Nat) :=
  if w ≤ raw.length then some (valLE (raw.take w), w) else none

/-- Modelled from the spec: the external variable-length unsigned
integer encoding used as count prefix (`varint.rs`, `VarUint32::pack`):
seven value bits per byte, continuation bit `0x80`, least significant
group first. -/
def packVaruint : Nat → List Nat
  | n =>
    if h : n < 128 then [n]
    else
      have : n / 128 < n := Nat.div_lt_self (by omega) (by norm_num)
      (n % 128 + 128) :: packVaruint (n / 128)

/-- Modelled from the spec: decoding of the variable-length unsigned
count (`varint.rs`, `VarUint32::unpack`); running out of bytes with the
continuation bit still set is a fatal abort. -/
def unpackVaruint : List Nat → Option (Nat × Nat)
  | [] => none
  | b :: rest =>
    if b < 128 then some (b, 1)
    else
      match unpackVaruint rest with
      | some (v, c) => some (b % 128 + 128 * v, c + 1)
      | none => none

/-- Modelled from the spec: strings pack as a varuint byte-count prefix
followed by the raw bytes (`serializer.rs`, `impl Packer for String`);
the length is first narrowed to 32 bits as in `self.len() as u32`. -/
def packStr (s : List Nat) : List Nat :=
  packVaruint (s.length % 2 ^ 32) ++ s

/-- Modelled from the spec: string `size()` is the count prefix's size
plus the byte length. -/
def sizeStr (s : List Nat) : Nat :=
  (packVaruint (s.length % 2 ^ 32)).length + s.length

/-- Modelled from the spec: string `unpack` reads the varuint count and
then that many raw bytes, aborting when the buffer is too short. -/
def unpackStr (raw : List Nat) : Option (List Nat × Nat) :=
  match unpackVaruint raw with
  | some (n, c) =>
      if n ≤ (raw.drop c).length then some ((raw.drop c).take n, c + n) else none
  | none => none

/-- Modelled from the spec: value of one hex character, `none` when the
character is not a hex digit (`utils.rs` hex primitive). -/
def hexVal (c : Char) : Option Nat :=
  if '0' ≤ c ∧ c ≤ '9' then some (c.toNat - 48)
  else if 'a' ≤ c ∧ c ≤ 'f' then some (c.toNat - 87)
  else if 'A' ≤ c ∧ c ≤ 'F' then some (c.toNat - 55)
  else none

/-- Modelled from the spec: the hex-string decode primitive
(`utils.rs`, `decode_hex`) — exactly 2 hex characters per byte. -/
def decode_hex : List Char → Option (List Nat)
  | [] => some []
  | [_] => none
  | a :: b :: rest =>
    match hexVal a, hexVal b, decode_hex rest with
    | some x, some y, some d => some ((16 * x + y) :: d)
    | _, _, _ => none

/-- Modelled from the spec: an account name is a base-32 packed 64-bit
value occupying 8 bytes on the wire (`name.rs`, `Name`). -/
structure Name where
  n : Nat
deriving DecidableEq

/-- Modelled from the spec: `Name::size` is the constant 8. -/
def Name.size (_ : Name) : Nat := 8

/-- Modelled from the spec: `Name::pack` writes the 64-bit value
little-endian. -/
def Name.pack (x : Name) : List Nat := packLE 8 x.n

/-- Modelled from the spec: `Name::unpack` reads 8 little-endian bytes,
aborting on a shorter buffer. -/
def Name.unpack (raw : List Nat) : Option (Name × Nat) :=
  (unpackLE 8 raw).map fun vc => (⟨vc.1⟩, vc.2)

/-- `Float128` from `structs.rs`: 16 opaque bytes. -/
structure Float128 where
  data : List Nat
deriving DecidableEq

def Float128.size (_ : Float128) : Nat := 16

def Float128.pack (x : Float128) : List Nat := x.data

def Float128.unpack (raw : List Nat) : Option (Float128 × Nat) :=
  if 16 ≤ raw.length then some (⟨raw.take 16⟩, 16) else none

/-- `Checksum160` from `structs.rs`: a 20-byte array. -/
structure Checksum160 where
  data : List Nat
deriving DecidableEq

def Checksum160.size (_ : Checksum160) : Nat := 20

def Checksum160.pack (x : Checksum160) : List Nat := x.data

def Checksum160.unpack (raw : List Nat) : Option (Checksum160 × Nat) :=
  if 20 ≤ raw.length then some (⟨raw.take 20⟩, 20) else none

/-- `Checksum256` from `structs.rs`: a 32-byte array. -/
structure Checksum256 where
  data : List Nat
deriving DecidableEq

/-- `Checksum256::from_hex`: the string must be exactly 64 characters
(`check`), then the hex decode fills the 32 bytes. -/
def Checksum256.from_hex (s : List Char) : Option Checksum256 :=
  if s.length = 64 then (decode_hex s).map fun d => ⟨d⟩ else none

def Checksum256.size (_ : Checksum256) : Nat := 32

def Checksum256.pack (x : Checksum256) : List Nat := x.data

def Checksum256.unpack (raw : List Nat) : Option (Checksum256 × Nat) :=
  if 32 ≤ raw.length then some (⟨raw.take 32⟩, 32) else none

/-- `Checksum512` from `structs.rs`: a 64-byte array. -/
structure Checksum512 where
  data : List Nat
deriving DecidableEq

def Checksum512.size (_ : Checksum512) : Nat := 64

def Checksum512.pack (x : Checksum512) : List Nat := x.data

def Checksum512.unpack (raw : List Nat) : Option (Checksum512 × Nat) :=
  if 64 ≤ raw.length then some (⟨raw.take 64⟩, 64) else none

/-- `ECCPublicKey` from `structs.rs`: a 33-byte compressed point. -/
structure ECCPublicKey where
  data : List Nat
deriving DecidableEq

def ECCPublicKey.size (_ : ECCPublicKey) : Nat := 33

def ECCPublicKey.pack (x : ECCPublicKey) : List Nat := x.data

def ECCPublicKey.unpack (raw : List Nat) : Option (ECCPublicKey × Nat) :=
  if 33 ≤ raw.length then some (⟨raw.take 33⟩, 33) else none

/-- `UserPresence` from `structs.rs`: None = 0, Present = 1, Verified = 2. -/
inductive UserPresence where
  | None
  | Present
  | Verified
deriving DecidableEq

/-- The `as u8` value of a `UserPresence` discriminant. -/
def UserPresence.toU8 : UserPresence → Nat
  | .None => 0
  | .Present => 1
  | .Verified => 2

def UserPresence.size (_ : UserPresence) : Nat := 1

/-- `UserPresence::pack`: `(*self as u8).pack(enc)`. -/
def UserPresence.pack (x : UserPresence) : List Nat := packLE 1 x.toU8

/-- `UserPresence::unpack`: requires one byte, matches on it, aborting
on any value other than 0, 1, 2. -/
def UserPresence.unpack (raw : List Nat) : Option (UserPresence × Nat) :=
  match raw with
  | [] => none
  | b :: _ =>
    if b = 0 then some (.None, 1)
    else if b = 1 then some (.Present, 1)
    else if b = 2 then some (.Verified, 1)
    else none

/-- `WebAuthNPublicKey` from `structs.rs`. -/
structure WebAuthNPublicKey where
  key : ECCPublicKey
  user_presence : UserPresence
  rpid : List Nat
deriving DecidableEq

def WebAuthNPublicKey.size (x : WebAuthNPublicKey) : Nat :=
  x.key.size + x.user_presence.size + sizeStr x.rpid

/-- `WebAuthNPublicKey::pack`: key, presence flag, then the
length-prefixed relying-party id, in that order. -/
def WebAuthNPublicKey.pack (x : WebAuthNPublicKey) : List Nat :=
  x.key.pack ++ x.user_presence.pack ++ packStr x.rpid

/-- `WebAuthNPublicKey::unpack`: upfront `check(data.len() >= 33)`,
then a decoder unpacks key, presence and rpid sequentially. -/
def WebAuthNPublicKey.unpack (raw : List Nat) : Option (WebAuthNPublicKey × Nat) :=
  if 33 ≤ raw.length then
    (ECCPublicKey.unpack raw).bind fun kc =>
      (UserPresence.unpack (raw.drop kc.2)).bind fun pc =>
        (unpackStr (raw.drop (kc.2 + pc.2))).map fun rc =>
          (⟨kc.1, pc.1, rc.1⟩, kc.2 + pc.2 + rc.2)
  else none

/-- `PublicKey` from `structs.rs`: tag 0 = K1, 1 = R1, 2 = WebAuthn. -/
inductive PublicKey where
  | K1 (k : ECCPublicKey)
  | R1 (k : ECCPublicKey)
  | WebAuth (w : WebAuthNPublicKey)
deriving DecidableEq

def PublicKey.size : PublicKey → Nat
  | .K1 x => x.size + 1
  | .R1 x => x.size + 1
  | .WebAuth x => x.size + 1

/-- `PublicKey::pack`: the variant's tag byte, then its payload. -/
def PublicKey.pack : PublicKey → List Nat
  | .K1 x => packLE 1 0 ++ x.pack
  | .R1 x => packLE 1 1 ++ x.pack
  | .WebAuth x => packLE 1 2 ++ x.pack

/-- `PublicKey::unpack`: upfront `check(raw.len() >= 34)`, reads the
tag byte, dispatches on 0/1/2, aborts on anything else. -/
def PublicKey.unpack (raw : List Nat) : Option (PublicKey × Nat) :=
  if 34 ≤ raw.length then
    match raw with
    | [] => none
    | t :: rest =>
      if t = 0 then (ECCPublicKey.unpack rest).map fun kc => (.K1 kc.1, 1 + kc.2)
      else if t = 1 then (ECCPublicKey.unpack rest).map fun kc => (.R1 kc.1, 1 + kc.2)
      else if t = 2 then (WebAuthNPublicKey.unpack rest).map fun wc => (.WebAuth wc.1, 1 + wc.2)
      else none
  else none

/-- `Signature` from `structs.rs`: a type byte and 65 payload bytes. -/
structure Signature where
  ty : Nat
  data : List Nat
deriving DecidableEq

/-- `Signature::from_hex`: the string must be exactly 130 characters,
the type is set to 0 and the 65 bytes are hex-decoded. -/
def Signature.from_hex (s : List Char) : Option Signature :=
  if s.length = 130 then (decode_hex s).map fun d => ⟨0, d⟩ else none

/-- `Signature::default`: type 0, 65 zero bytes. -/
def Signature.default : Signature := ⟨0, List.replicate 65 0⟩

def Signature.size (_ : Signature) : Nat := 66

/-- `Signature::pack`: the type byte then the 65 payload bytes. -/
def Signature.pack (x : Signature) : List Nat := packLE 1 x.ty ++ x.data

/-- `Signature::unpack`: `check(data.len() >= 66)`, `ty = data[0]`,
`check(ty == 0)`, then copies `data[1..66]`. -/
def Signature.unpack (raw : List Nat) : Option (Signature × Nat) :=
  if 66 ≤ raw.length then
    match raw with
    | [] => none
    | t :: rest => if t = 0 then some (⟨t, rest.take 65⟩, 66) else none
  else none

/-- `Uint256` from `structs.rs`: two 128-bit limbs `data[0]`, `data[1]`. -/
structure Uint256 where
  d0 : Nat
  d1 : Nat
deriving DecidableEq

def Uint256.size (_ : Uint256) : Nat := 32

/-- `Uint256::pack`: `data[0]` then `data[1]`, each 16 bytes LE. -/
def Uint256.pack (x : Uint256) : List Nat := packLE 16 x.d0 ++ packLE 16 x.d1

/-- `Uint256::unpack`: a decoder unpacks both limbs in order; the
bounds checks live in the 128-bit primitive. -/
def Uint256.unpack (raw : List Nat) : Option (Uint256 × Nat) :=
  (unpackLE 16 raw).bind fun lc =>
    (unpackLE 16 (raw.drop lc.2)).map fun hc => (⟨lc.1, hc.1⟩, lc.2 + hc.2)

/-- `TimePoint` from `structs.rs`: a 64-bit microsecond count. -/
structure TimePoint where
  elapsed : Nat
deriving DecidableEq

def TimePoint.size (_ : TimePoint) : Nat := 8

def TimePoint.pack (x : TimePoint) : List Nat := packLE 8 x.elapsed

def TimePoint.unpack (raw : List Nat) : Option (TimePoint × Nat) :=
  if 8 ≤ raw.length then (unpackLE 8 raw).map fun vc => (⟨vc.1⟩, vc.2) else none

/-- `TimePointSec` from `structs.rs`: a 32-bit second count. -/
structure TimePointSec where
  seconds : Nat
deriving DecidableEq

def TimePointSec.size (_ : TimePointSec) : Nat := 4

def TimePointSec.pack (x : TimePointSec) : List Nat := packLE 4 x.seconds

def TimePointSec.unpack (raw : List Nat) : Option (TimePointSec × Nat) :=
  if 4 ≤ raw.length then (unpackLE 4 raw).map fun vc => (⟨vc.1⟩, vc.2) else none

/-- `BlockTimeStampType` from `structs.rs`: a 32-bit slot count. -/
structure BlockTimeStampType where
  slot : Nat
deriving DecidableEq

def BlockTimeStampType.size (_ : BlockTimeStampType) : Nat := 4

def BlockTimeStampType.pack (x : BlockTimeStampType) : List Nat := packLE 4 x.slot

def BlockTimeStampType.unpack (raw : List Nat) : Option (BlockTimeStampType × Nat) :=
  if 4 ≤ raw.length then (unpackLE 4 raw).map fun vc => (⟨vc.1⟩, vc.2) else none

/-- `KeyWeight` from `structs.rs`: a public key and a 16-bit weight. -/
structure KeyWeight where
  key : PublicKey
  weight : Nat
deriving DecidableEq

/-- `KeyWeight::size`: `2 + self.key.size()`. -/
def KeyWeight.size (x : KeyWeight) : Nat := 2 + x.key.size

/-- `KeyWeight::pack`: key then 16-bit little-endian weight. -/
def KeyWeight.pack (x : KeyWeight) : List Nat := x.key.pack ++ packLE 2 x.weight

/-- `KeyWeight::unpack`: a decoder unpacks key then weight. -/
def KeyWeight.unpack (raw : List Nat) : Option (KeyWeight × Nat) :=
  (PublicKey.unpack raw).bind fun kc =>
    (unpackLE 2 (raw.drop kc.2)).map fun wc => (⟨kc.1, wc.1⟩, kc.2 + wc.2)

/-- Modelled from the spec: `Vec<T>::pack` (`serializer.rs`) writes the
varuint element count (the length narrowed `as u32`) then each
element's pack output back-to-back. -/
def packKeyWeights (ks : List KeyWeight) : List Nat :=
  packVaruint (ks.length % 2 ^ 32) ++ (ks.map KeyWeight.pack).flatten

/-- Modelled from the spec: the element-reading loop of
`Vec<T>::unpack` — unpack `n` elements sequentially, aborting when any
element aborts. -/
def unpackKeyWeightsLoop : Nat → List Nat → Option (List KeyWeight × Nat)
  | 0, _ => some ([], 0)
  | n + 1, raw =>
    (KeyWeight.unpack raw).bind fun kc =>
      (unpackKeyWeightsLoop n (raw.drop kc.2)).map fun lc => (kc.1 :: lc.1, kc.2 + lc.2)

/-- Modelled from the spec: `Vec<T>::unpack` reads the varuint count
then that many elements. -/
def unpackKeyWeights (raw : List Nat) : Option (List KeyWeight × Nat) :=
  (unpackVaruint raw).bind fun nc =>
    (unpackKeyWeightsLoop nc.1 (raw.drop nc.2)).map fun lc => (lc.1, nc.2 + lc.2)

/-- `BlockSigningAuthorityV0` from `structs.rs`. -/
structure BlockSigningAuthorityV0 where
  threshold : Nat
  keys : List KeyWeight
deriving DecidableEq

/-- `BlockSigningAuthorityV0::size`, exactly as written in the source:
`2 + VarUint32::new(self.keys.len() as u32).size()` plus each key
weight's size. -/
def BlockSigningAuthorityV0.size (x : BlockSigningAuthorityV0) : Nat :=
  2 + (packVaruint (x.keys.length % 2 ^ 32)).length
    + (x.keys.map KeyWeight.size).sum

/-- `BlockSigningAuthorityV0::pack`: the 32-bit threshold then the
packed key-weight vector. -/
def BlockSigningAuthorityV0.pack (x : BlockSigningAuthorityV0) : List Nat :=
  packLE 4 x.threshold ++ packKeyWeights x.keys

/-- `BlockSigningAuthorityV0::unpack`: a decoder unpacks threshold then
the key-weight vector. -/
def BlockSigningAuthorityV0.unpack (raw : List Nat) :
    Option (BlockSigningAuthorityV0 × Nat) :=
  (unpackLE 4 raw).bind fun tc =>
    (unpackKeyWeights (raw.drop tc.2)).map fun kc => (⟨tc.1, kc.1⟩, tc.2 + kc.2)

/-- `BlockSigningAuthority` from `structs.rs`: only variant tag 0 (V0)
is defined. -/
inductive BlockSigningAuthority where
  | V0 (v : BlockSigningAuthorityV0)
deriving DecidableEq

def BlockSigningAuthority.size : BlockSigningAuthority → Nat
  | .V0 x => 1 + x.size

/-- `BlockSigningAuthority::pack`: tag byte 0 then the V0 payload. -/
def BlockSigningAuthority.pack : BlockSigningAuthority → List Nat
  | .V0 x => packLE 1 0 ++ x.pack

/-- `BlockSigningAuthority::unpack`: reads the tag byte; tag 0 unpacks
a V0 payload, any other tag aborts. -/
def BlockSigningAuthority.unpack (raw : List Nat) :
    Option (BlockSigningAuthority × Nat) :=
  match raw with
  | [] => none
  | t :: rest =>
    if t = 0 then
      (BlockSigningAuthorityV0.unpack rest).map fun vc => (.V0 vc.1, 1 + vc.2)
    else none

/-- `ProducerAuthority` from `structs.rs`: a producer name and its
block signing authority. -/
structure ProducerAuthority where
  producer_name : Name
  authority : BlockSigningAuthority
deriving DecidableEq

def ProducerAuthority.size (x : ProducerAuthority) : Nat :=
  x.producer_name.size + x.authority.size

/-- `ProducerAuthority::pack`: name then authority. -/
def ProducerAuthority.pack (x : ProducerAuthority) : List Nat :=
  x.producer_name.pack ++ x.authority.pack

/-- `ProducerAuthority::unpack`: a decoder unpacks name then authority. -/
def ProducerAuthority.unpack (raw : List Nat) : Option (ProducerAuthority × Nat) :=
  (Name.unpack raw).bind fun nc =>
    (BlockSigningAuthority.unpack (raw.drop nc.2)).map fun ac =>
      (⟨nc.1, ac.1⟩, nc.2 + ac.2)

/-- Well-formedness of an embedded `ECCPublicKey`: the Rust field is a
`[u8; 33]`. -/
def ECCPublicKey.Wf (x : ECCPublicKey) : Prop := x.data.length = 33

/-- Well-formedness of an embedded `WebAuthNPublicKey`: 33-byte key and
an rpid whose byte length fits in the `u32` the count prefix narrows
to. -/
def WebAuthNPublicKey.Wf (x : WebAuthNPublicKey) : Prop :=
  x.key.Wf ∧ x.rpid.length < 2 ^ 32

/-- Well-formedness of an embedded `PublicKey`. -/
def PublicKey.Wf : PublicKey → Prop
  | .K1 x => x.Wf
  | .R1 x => x.Wf
  | .WebAuth x => x.Wf

/-- Well-formedness of an embedded `KeyWeight`: the Rust weight is a
`u16`. -/
def KeyWeight.Wf (x : KeyWeight) : Prop := x.key.Wf ∧ x.weight < 2 ^ 16

/-- Well-formedness of an embedded `BlockSigningAuthorityV0`: the Rust
threshold is a `u32` and the key count fits in the `u32` count cast. -/
def BlockSigningAuthorityV0.Wf (x : BlockSigningAuthorityV0) : Prop :=
  x.threshold < 2 ^ 32 ∧ x.keys.length < 2 ^ 32 ∧ ∀ k ∈ x.keys, k.Wf

/-- Well-formedness of an embedded `BlockSigningAuthority`. -/
def BlockSigningAuthority.Wf : BlockSigningAuthority → Prop
  | .V0 x => x.Wf

/-- Well-formedness of an embedded `ProducerAuthority`: the Rust name
value is a `u64`. -/
def ProducerAuthority.Wf (x : ProducerAuthority) : Prop :=
  x.producer_name.n < 2 ^ 64 ∧ x.authority.Wf

/-- A producer authority with one key-weight entry of weight 10, used
to instantiate the round-trip law. -/
def paExample : ProducerAuthority :=
  ⟨⟨7⟩, .V0 ⟨1, [⟨.K1 ⟨List.replicate 33 0⟩, 10⟩]⟩⟩

theorem packLE_length (w n : Nat) : (packLE w n).length = w := by
  induction w generalizing n with
  | zero => rfl
  | succ w ih => simp [packLE, ih]

theorem valLE_packLE (w n : Nat) (h : n < 256 ^ w) : valLE (packLE w n) = n := by
  induction w generalizing n with
  | zero =>
      have : n = 0 := by simpa using h
      simp [this, packLE, valLE]
  | succ w ih =>
      have hdiv : n / 256 < 256 ^ w := by
        rw [Nat.div_lt_iff_lt_mul (by norm_num)]
        calc n < 256 ^ (w + 1) := h
        _ = 256 ^ w * 256 := by ring
      simp [packLE, valLE, ih _ hdiv, Nat.mod_add_div]

theorem unpackLE_packLE (w n : Nat) (rest : List Nat) (h : n < 256 ^ w) :
    unpackLE w (packLE w n ++ rest) = some (n, w) := by
  have hlen : (packLE w n).length = w := packLE_length w n
  have htake : (packLE w n ++ rest).take w = packLE w n := by
    have := List.take_left (packLE w n) rest
    rwa [hlen] at this
  simp [unpackLE, htake, valLE_packLE w n h, hlen]

theorem unpackVaruint_packVaruint (n : Nat) (rest : List Nat) :
    unpackVaruint (packVaruint n ++ rest) = some (n, (packVaruint n).length) := by
  induction n using Nat.strong_induction_on with
  | _ n ih =>
    by_cases h : n < 128
    · rw [packVaruint]
      simp [h, unpackVaruint]
    · have hd : n / 128 < n := Nat.div_lt_self (by omega) (by norm_num)
      rw [packVaruint]
      simp only [h, dite_false, List.cons_append, unpackVaruint]
      have hb : ¬ n % 128 + 128 < 128 := by omega
      simp only [hb, if_false, ih (n / 128) hd]
      have : n % 128 + 128 * (n / 128) = n := Nat.mod_add_div n 128
      simp [this]

theorem unpackStr_packStr (s : List Nat) (rest : List Nat) (h : s.length < 2 ^ 32) :
    unpackStr (packStr s ++ rest) = some (s, sizeStr s) := by
  have hmod : s.length % 2 ^ 32 = s.length := Nat.mod_eq_of_lt h
  have hv := unpackVaruint_packVaruint s.length (s ++ rest)
  have hdrop : ((packVaruint s.length ++ (s ++ rest)).drop
      (packVaruint s.length).length) = s ++ rest :=
    List.drop_left _ _
  have hle : s.length ≤ (s ++ rest).length := by simp
  simp only [packStr, sizeStr, hmod, List.append_assoc, unpackStr, hv, hdrop]
  simp [hle, List.take_left]

theorem packLE_one (n : Nat) : packLE 1 n = [n % 256] := rfl

theorem packVaruint_length_pos (n : Nat) : 0 < (packVaruint n).length := by
  rw [packVaruint]
  split <;> simp

theorem packStr_length (s : List Nat) : (packStr s).length = sizeStr s := by
  simp [packStr, sizeStr]

theorem eccPublicKey_roundtrip (x : ECCPublicKey) (rest : List Nat) (h : x.Wf) :
    ECCPublicKey.unpack (x.pack ++ rest) = some (x, 33) := by
  have hd : x.data.length = 33 := h
  have hle : 33 ≤ (x.pack ++ rest).length := by
    simp [ECCPublicKey.pack, hd]
  have htake : (x.pack ++ rest).take 33 = x.data := List.take_left' hd
  simp [ECCPublicKey.unpack, hle, htake, ECCPublicKey.pack, hd]

theorem eccPublicKey_pack_length (x : ECCPublicKey) (h : x.Wf) :
    x.pack.length = 33 := h

theorem userPresence_roundtrip (x : UserPresence) (rest : List Nat) :
    UserPresence.unpack (x.pack ++ rest) = some (x, 1) := by
  cases x <;> rfl

theorem userPresence_pack_length (x : UserPresence) : x.pack.length = 1 := by
  cases x <;> rfl

theorem webAuthN_pack_length (x : WebAuthNPublicKey) (h : x.Wf) :
    x.pack.length = 34 + sizeStr x.rpid := by
  simp [WebAuthNPublicKey.pack, eccPublicKey_pack_length x.key h.1,
    userPresence_pack_length, packStr_length]
  omega

theorem webAuthN_roundtrip (x : WebAuthNPublicKey) (rest : List Nat)
    (h : x.Wf) :
    WebAuthNPublicKey.unpack (x.pack ++ rest) = some (x, x.pack.length) := by
  obtain ⟨hk, hr⟩ := h
  have hkp : x.key.pack.length = 33 := eccPublicKey_pack_length x.key hk
  have e1 : x.pack ++ rest
      = x.key.pack ++ (x.user_presence.pack ++ (packStr x.rpid ++ rest)) := by
    simp [WebAuthNPublicKey.pack]
  have hle : 33 ≤ (x.pack ++ rest).length := by
    rw [e1]; simp [hkp]
  have hdrop1 : (x.key.pack ++ (x.user_presence.pack ++ (packStr x.rpid ++ rest))).drop 33
      = x.user_presence.pack ++ (packStr x.rpid ++ rest) := List.drop_left' hkp
  have hlen2 : (x.key.pack ++ x.user_presence.pack).length = 34 := by
    simp [hkp, userPresence_pack_length]
  have hdrop2 : (x.key.pack ++ (x.user_presence.pack ++ (packStr x.rpid ++ rest))).drop (33 + 1)
      = packStr x.rpid ++ rest := by
    rw [← List.append_assoc]
    exact List.drop_left' hlen2
  rw [WebAuthNPublicKey.unpack, if_pos hle, e1,
    eccPublicKey_roundtrip x.key _ hk]
  simp only [Option.some_bind, hdrop1,
    userPresence_roundtrip x.user_presence (packStr x.rpid ++ rest),
    hdrop2, unpackStr_packStr x.rpid rest hr, Option.map_some']
  rw [webAuthN_pack_length x ⟨hk, hr⟩]

theorem publicKey_pack_length (x : PublicKey) (h : x.Wf) :
    x.pack.length = x.size := by
  cases x with
  | K1 k => simpa [PublicKey.pack, PublicKey.size, packLE_one, ECCPublicKey.size]
      using eccPublicKey_pack_length k h
  | R1 k => simpa [PublicKey.pack, PublicKey.size, packLE_one, ECCPublicKey.size]
      using eccPublicKey_pack_length k h
  | WebAuth w =>
      have := webAuthN_pack_length w h
      simp [PublicKey.pack, PublicKey.size, packLE_one, WebAuthNPublicKey.size,
        ECCPublicKey.size, UserPresence.size, this]

theorem publicKey_roundtrip (x : PublicKey) (rest : List Nat) (h : x.Wf) :
    PublicKey.unpack (x.pack ++ rest) = some (x, x.pack.length) := by
  cases x with
  | K1 k =>
      have hk : k.data.length = 33 := h
      have hle : 34 ≤ (PublicKey.pack (.K1 k) ++ rest).length := by
        simp [PublicKey.pack, packLE_one, ECCPublicKey.pack, hk]
      have e1 : PublicKey.pack (.K1 k) ++ rest = 0 :: (k.pack ++ rest) := by
        simp [PublicKey.pack, packLE_one]
      rw [PublicKey.unpack.eq_def, if_pos hle, e1]
      simp [eccPublicKey_roundtrip k rest h, PublicKey.pack, packLE_one,
        eccPublicKey_pack_length k h]
  | R1 k =>
      have hk : k.data.length = 33 := h
      have hle : 34 ≤ (PublicKey.pack (.R1 k) ++ rest).length := by
        simp [PublicKey.pack, packLE_one, ECCPublicKey.pack, hk]
      have e1 : PublicKey.pack (.R1 k) ++ rest = 1 :: (k.pack ++ rest) := by
        simp [PublicKey.pack, packLE_one]
      rw [PublicKey.unpack.eq_def, if_pos hle, e1]
      simp [eccPublicKey_roundtrip k rest h, PublicKey.pack, packLE_one,
        eccPublicKey_pack_length k h]
  | WebAuth w =>
      have hwlen : w.pack.length = 34 + sizeStr w.rpid := webAuthN_pack_length w h
      have hle : 34 ≤ (PublicKey.pack (.WebAuth w) ++ rest).length := by
        simp [PublicKey.pack, packLE_one, hwlen]
        omega
      have e1 : PublicKey.pack (.WebAuth w) ++ rest = 2 :: (w.pack ++ rest) := by
        simp [PublicKey.pack, packLE_one]
      rw [PublicKey.unpack.eq_def, if_pos hle, e1]
      simp [webAuthN_roundtrip w rest h, PublicKey.pack, packLE_one,
        hwlen]
      omega

theorem name_roundtrip (x : Name) (rest : List Nat) (h : x.n < 2 ^ 64) :
    Name.unpack (x.pack ++ rest) = some (x, 8) := by
  have h' : x.n < 256 ^ 8 := by
    have : (2 : Nat) ^ 64 = 256 ^ 8 := by norm_num
    omega
  simp [Name.unpack, Name.pack, unpackLE_packLE 8 x.n rest h']

theorem keyWeight_roundtrip (x : KeyWeight) (rest : List Nat) (h : x.Wf) :
    KeyWeight.unpack (x.pack ++ rest) = some (x, x.pack.length) := by
  obtain ⟨hkey, hw⟩ := h
  have hw' : x.weight < 256 ^ 2 := by
    have : (2 : Nat) ^ 16 = 256 ^ 2 := by norm_num
    omega
  have e1 : x.pack ++ rest = x.key.pack ++ (packLE 2 x.weight ++ rest) := by
    simp [KeyWeight.pack]
  have hdrop : (x.key.pack ++ (packLE 2 x.weight ++ rest)).drop x.key.pack.length
      = packLE 2 x.weight ++ rest := List.drop_left _ _
  rw [KeyWeight.unpack, e1, publicKey_roundtrip x.key _ hkey]
  simp only [Option.some_bind, hdrop, unpackLE_packLE 2 x.weight rest hw',
    Option.map_some']
  simp [KeyWeight.pack, packLE_length]

theorem unpackKeyWeightsLoop_pack (ks : List KeyWeight) (rest : List Nat)
    (h : ∀ k ∈ ks, k.Wf) :
    unpackKeyWeightsLoop ks.length ((ks.map KeyWeight.pack).flatten ++ rest)
      = some (ks, ((ks.map KeyWeight.pack).flatten).length) := by
  induction ks generalizing rest with
  | nil => simp [unpackKeyWeightsLoop]
  | cons k ks ih =>
      have hk : k.Wf := h k (List.mem_cons_self k ks)
      have hks : ∀ j ∈ ks, j.Wf := fun j hj => h j (List.mem_cons_of_mem k hj)
      have hdrop : (k.pack ++ ((ks.map KeyWeight.pack).flatten ++ rest)).drop k.pack.length
          = (ks.map KeyWeight.pack).flatten ++ rest := List.drop_left _ _
      simp only [List.map_cons, List.flatten_cons, List.length_cons,
        List.append_assoc, unpackKeyWeightsLoop]
      rw [keyWeight_roundtrip k _ hk]
      simp only [Option.some_bind, hdrop, ih rest hks, Option.map_some']
      simp

theorem unpackKeyWeights_pack (ks : List KeyWeight) (rest : List Nat)
    (hlen : ks.length < 2 ^ 32) (h : ∀ k ∈ ks, k.Wf) :
    unpackKeyWeights (packKeyWeights ks ++ rest)
      = some (ks, (packKeyWeights ks).length) := by
  have hmod : ks.length % 2 ^ 32 = ks.length := Nat.mod_eq_of_lt hlen
  have hv := unpackVaruint_packVaruint ks.length ((ks.map KeyWeight.pack).flatten ++ rest)
  have hdrop : ((packVaruint ks.length ++ ((ks.map KeyWeight.pack).flatten ++ rest)).drop
      (packVaruint ks.length).length) = (ks.map KeyWeight.pack).flatten ++ rest :=
    List.drop_left _ _
  simp only [packKeyWeights, hmod, List.append_assoc, unpackKeyWeights, hv,
    Option.some_bind, hdrop, unpackKeyWeightsLoop_pack ks rest h, Option.map_some']
  simp

theorem bsaV0_roundtrip (x : BlockSigningAuthorityV0)
    (rest : List Nat) (h : x.Wf) :
    BlockSigningAuthorityV0.unpack (x.pack ++ rest) = some (x, x.pack.length) := by
  obtain ⟨ht, hlen, hks⟩ := h
  have ht' : x.threshold < 256 ^ 4 := by
    have : (2 : Nat) ^ 32 = 256 ^ 4 := by norm_num
    omega
  have e1 : x.pack ++ rest = packLE 4 x.threshold ++ (packKeyWeights x.keys ++ rest) := by
    simp [BlockSigningAuthorityV0.pack]
  have hdrop : (packLE 4 x.threshold ++ (packKeyWeights x.keys ++ rest)).drop 4
      = packKeyWeights x.keys ++ rest := List.drop_left' (packLE_length 4 x.threshold)
  rw [BlockSigningAuthorityV0.unpack, e1, unpackLE_packLE 4 x.threshold _ ht']
  simp only [Option.some_bind, hdrop, unpackKeyWeights_pack x.keys rest hlen hks,
    Option.map_some']
  simp [BlockSigningAuthorityV0.pack, packLE_length]

theorem bsa_roundtrip (x : BlockSigningAuthority)
    (rest : List Nat) (h : x.Wf) :
    BlockSigningAuthority.unpack (x.pack ++ rest) = some (x, x.pack.length) := by
  cases x with
  | V0 v =>
      have e1 : BlockSigningAuthority.pack (.V0 v) ++ rest = 0 :: (v.pack ++ rest) := by
        simp [BlockSigningAuthority.pack, packLE_one]
      rw [e1, BlockSigningAuthority.unpack]
      simp [bsaV0_roundtrip v rest h,
        BlockSigningAuthority.pack, packLE_one]
      omega

theorem producerAuthority_roundtrip_aux (x : ProducerAuthority) (rest : List Nat)
    (h : x.Wf) :
    ProducerAuthority.unpack (x.pack ++ rest) = some (x, x.pack.length) := by
  obtain ⟨hn, ha⟩ := h
  have e1 : x.pack ++ rest = x.producer_name.pack ++ (x.authority.pack ++ rest) := by
    simp [ProducerAuthority.pack]
  have hdrop : (x.producer_name.pack ++ (x.authority.pack ++ rest)).drop 8
      = x.authority.pack ++ rest := List.drop_left' (packLE_length 8 x.producer_name.n)
  rw [ProducerAuthority.unpack, e1, name_roundtrip x.producer_name _ hn]
  simp only [Option.some_bind, hdrop,
    bsa_roundtrip x.authority rest ha, Option.map_some']
  simp [ProducerAuthority.pack, Name.pack, packLE_length]

theorem packVaruint_small (n : Nat) (h : n < 128) : packVaruint n = [n] := by
  rw [packVaruint]
  simp [h]

theorem keyWeight_pack_length (x : KeyWeight) (h : x.Wf) :
    x.pack.length = x.size := by
  simp [KeyWeight.pack, KeyWeight.size, packLE_length,
    publicKey_pack_length x.key h.1]
  omega

/-- C1: the claim says `BlockSigningAuthorityV0::size` equals the byte
count `pack` writes — 4 bytes of threshold plus the count prefix plus
the entries.  The code instead starts the sum at `2`, so on the default
value (threshold 0, no keys) `size()` reports 3 while `pack` writes
5 bytes (4-byte threshold plus the 1-byte zero count). -/
theorem C1_blockSigningAuthorityV0_size_mismatch :
    BlockSigningAuthorityV0.size ⟨0, []⟩ = 3 ∧
    (BlockSigningAuthorityV0.pack ⟨0, []⟩).length = 5 := by
  have h0 : packVaruint 0 = [0] := packVaruint_small 0 (by norm_num)
  constructor
  · simp [BlockSigningAuthorityV0.size, h0]
  · simp [BlockSigningAuthorityV0.pack, packKeyWeights, h0, packLE_length]

/-- C6: a `PublicKey::K1` holding 33 zero bytes packs to the tag byte 0
followed by 33 zero bytes, 34 bytes in total, and `size()` reports 34. -/
theorem C6_k1_zero_pack :
    PublicKey.pack (.K1 ⟨List.replicate 33 0⟩) = 0 :: List.replicate 33 0 ∧
    (PublicKey.pack (.K1 ⟨List.replicate 33 0⟩)).length = 34 ∧
    PublicKey.size (.K1 ⟨List.replicate 33 0⟩) = 34 := by
  refine ⟨?_, ?_, ?_⟩ <;>
    simp [PublicKey.pack, PublicKey.size, packLE_one, ECCPublicKey.pack,
      ECCPublicKey.size]

/-- C7: a `WebAuthNPublicKey` with presence Verified and relying-party
id "x" (the single byte 0x78) packs as the 33 key bytes verbatim, then
the presence byte 0x02, then the length-prefixed string; pack returns
the 36 bytes written. -/
theorem C7_webauthn_pack (k : ECCPublicKey) (h : k.Wf) :
    WebAuthNPublicKey.pack ⟨k, .Verified, [120]⟩ = k.data ++ [2] ++ [1, 120] ∧
    (WebAuthNPublicKey.pack ⟨k, .Verified, [120]⟩).length = 36 := by
  have h1 : packVaruint 1 = [1] := packVaruint_small 1 (by norm_num)
  have hd : k.data.length = 33 := h
  constructor
  · simp [WebAuthNPublicKey.pack, ECCPublicKey.pack, UserPresence.pack,
      packLE_one, UserPresence.toU8, packStr, h1]
  · simp [WebAuthNPublicKey.pack, ECCPublicKey.pack, UserPresence.pack,
      packLE_one, UserPresence.toU8, packStr, h1, hd]

/-- Witness for C7 at the all-zero EC key. -/
theorem C7_webauthn_pack_witness :
    (⟨List.replicate 33 0⟩ : ECCPublicKey).Wf ∧
    (WebAuthNPublicKey.pack ⟨⟨List.replicate 33 0⟩, .Verified, [120]⟩
        = List.replicate 33 0 ++ [2] ++ [1, 120] ∧
      (WebAuthNPublicKey.pack ⟨⟨List.replicate 33 0⟩, .Verified, [120]⟩).length = 36) :=
  ⟨by simp [ECCPublicKey.Wf], C7_webauthn_pack ⟨List.replicate 33 0⟩ (by simp [ECCPublicKey.Wf])⟩

/-- C2: for every well-formed `ProducerAuthority`, unpacking the bytes
produced by `pack` yields the same value (name, threshold, key and
weight included) and consumes exactly the byte count `pack` produced. -/
theorem C2_producerAuthority_roundtrip (x : ProducerAuthority) (h : x.Wf) :
    ProducerAuthority.unpack x.pack = some (x, x.pack.length) := by
  simpa using producerAuthority_roundtrip_aux x [] h

/-- Witness for C2 at a producer authority holding a single key-weight
entry with weight 10. -/
theorem C2_producerAuthority_roundtrip_witness :
    paExample.Wf ∧
    ProducerAuthority.unpack paExample.pack = some (paExample, paExample.pack.length) :=
  ⟨by norm_num [paExample, ProducerAuthority.Wf, BlockSigningAuthority.Wf,
      BlockSigningAuthorityV0.Wf, KeyWeight.Wf, PublicKey.Wf, ECCPublicKey.Wf],
    C2_producerAuthority_roundtrip paExample
      (by norm_num [paExample, ProducerAuthority.Wf, BlockSigningAuthority.Wf,
        BlockSigningAuthorityV0.Wf, KeyWeight.Wf, PublicKey.Wf, ECCPublicKey.Wf])⟩

/-- C3: `PublicKey::unpack` aborts on every buffer whose leading byte
is not 0, 1 or 2, and `BlockSigningAuthority::unpack` aborts on every
buffer whose leading byte is not 0. -/
theorem C3_tag_rejection :
    (∀ (raw : List Nat) (b : Nat), raw.head? = some b → b ≠ 0 → b ≠ 1 → b ≠ 2 →
      PublicKey.unpack raw = none) ∧
    (∀ (raw : List Nat) (b : Nat), raw.head? = some b → b ≠ 0 →
      BlockSigningAuthority.unpack raw = none) := by
  constructor
  · intro raw b hb h0 h1 h2
    cases raw with
    | nil => simp at hb
    | cons t rest =>
        have ht : t = b := by simpa using hb
        subst ht
        rw [PublicKey.unpack.eq_def]
        split
        · simp [h0, h1, h2]
        · rfl
  · intro raw b hb h0
    cases raw with
    | nil => simp at hb
    | cons t rest =>
        have ht : t = b := by simpa using hb
        subst ht
        rw [BlockSigningAuthority.unpack.eq_def]
        simp [h0]

/-- Witness for C3: a public-key buffer led by tag 3 and a
block-signing-authority buffer led by tag 1 are both rejected. -/
theorem C3_tag_rejection_witness :
    ((3 :: List.replicate 40 0).head? = some 3 ∧
      PublicKey.unpack (3 :: List.replicate 40 0) = none) ∧
    ((1 :: List.replicate 40 0).head? = some 1 ∧
      BlockSigningAuthority.unpack (1 :: List.replicate 40 0) = none) :=
  ⟨⟨rfl, C3_tag_rejection.1 _ 3 rfl (by decide) (by decide) (by decide)⟩,
    ⟨rfl, C3_tag_rejection.2 _ 1 rfl (by decide)⟩⟩

/-- C4: every fixed-size type's `unpack` aborts on a buffer shorter
than the type's declared size. -/
theorem C4_length_guard :
    (∀ raw : List Nat, raw.length < 16 → Float128.unpack raw = none) ∧
    (∀ raw : List Nat, raw.length < 20 → Checksum160.unpack raw = none) ∧
    (∀ raw : List Nat, raw.length < 32 → Checksum256.unpack raw = none) ∧
    (∀ raw : List Nat, raw.length < 64 → Checksum512.unpack raw = none) ∧
    (∀ raw : List Nat, raw.length < 33 → ECCPublicKey.unpack raw = none) ∧
    (∀ raw : List Nat, raw.length < 1 → UserPresence.unpack raw = none) ∧
    (∀ raw : List Nat, raw.length < 66 → Signature.unpack raw = none) ∧
    (∀ raw : List Nat, raw.length < 32 → Uint256.unpack raw = none) ∧
    (∀ raw : List Nat, raw.length < 8 → TimePoint.unpack raw = none) ∧
    (∀ raw : List Nat, raw.length < 4 → TimePointSec.unpack raw = none) ∧
    (∀ raw : List Nat, raw.length < 4 → BlockTimeStampType.unpack raw = none) := by
  refine ⟨?_, ?_, ?_, ?_, ?_, ?_, ?_, ?_, ?_, ?_, ?_⟩
  · intro raw h; rw [Float128.unpack, if_neg (by omega)]
  · intro raw h; rw [Checksum160.unpack, if_neg (by omega)]
  · intro raw h; rw [Checksum256.unpack, if_neg (by omega)]
  · intro raw h; rw [Checksum512.unpack, if_neg (by omega)]
  · intro raw h; rw [ECCPublicKey.unpack, if_neg (by omega)]
  · intro raw h
    cases raw with
    | nil => rfl
    | cons a l => exact absurd h (by simp)
  · intro raw h; rw [Signature.unpack.eq_def, if_neg (by omega)]
  · intro raw h
    by_cases h16 : 16 ≤ raw.length
    · have h2 : ¬ 16 ≤ (raw.drop 16).length := by
        simp [List.length_drop]
        omega
      simp [Uint256.unpack, unpackLE, h16, h2]
      omega
    · simp [Uint256.unpack, unpackLE, h16]
  · intro raw h; rw [TimePoint.unpack, if_neg (by omega)]
  · intro raw h; rw [TimePointSec.unpack, if_neg (by omega)]
  · intro raw h; rw [BlockTimeStampType.unpack, if_neg (by omega)]

/-- Witness for C4: a 65-byte signature buffer (one short of 66) and a
31-byte checksum buffer are both rejected. -/
theorem C4_length_guard_witness :
    ((List.replicate 65 (0 : Nat)).length < 66 ∧
      Signature.unpack (List.replicate 65 (0 : Nat)) = none) ∧
    ((List.replicate 31 (0 : Nat)).length < 32 ∧
      Checksum256.unpack (List.replicate 31 (0 : Nat)) = none) :=
  ⟨⟨by simp, C4_length_guard.2.2.2.2.2.2.1 _ (by simp)⟩,
    ⟨by simp, C4_length_guard.2.2.1 _ (by simp)⟩⟩

/-- C5: `Signature::unpack` succeeds only with leading type byte 0: a
nonzero first byte aborts even on a long-enough buffer, and a zero
first byte consumes exactly 66 bytes. -/
theorem C5_signature_type_guard :
    (∀ (b : Nat) (rest : List Nat), 66 ≤ (b :: rest).length → b ≠ 0 →
      Signature.unpack (b :: rest) = none) ∧
    (∀ rest : List Nat, 66 ≤ ((0 : Nat) :: rest).length →
      Signature.unpack (0 :: rest) = some (⟨0, rest.take 65⟩, 66)) := by
  constructor
  · intro b rest hle hb
    rw [Signature.unpack.eq_def, if_pos hle]
    simp [hb]
  · intro rest hle
    rw [Signature.unpack.eq_def, if_pos hle]
    simp

/-- Witness for C5: a 66-byte buffer led by type byte 1 is rejected; a
66-byte buffer led by type byte 0 decodes, consuming 66 bytes. -/
theorem C5_signature_type_guard_witness :
    (66 ≤ ((1 : Nat) :: List.replicate 65 0).length ∧
      Signature.unpack (1 :: List.replicate 65 0) = none) ∧
    (66 ≤ ((0 : Nat) :: List.replicate 65 0).length ∧
      Signature.unpack (0 :: List.replicate 65 0)
        = some (⟨0, (List.replicate 65 (0 : Nat)).take 65⟩, 66)) :=
  ⟨⟨by simp, C5_signature_type_guard.1 1 _ (by simp) (by decide)⟩,
    ⟨by simp, C5_signature_type_guard.2 _ (by simp)⟩⟩

/-- C8: `Checksum256::from_hex` of 64 zero characters yields a value
packing to 32 zero bytes and unpacking back to itself; any string whose
length is not 64 is rejected. -/
theorem C8_checksum256_from_hex :
    (Checksum256.from_hex (List.replicate 64 '0') = some ⟨List.replicate 32 0⟩ ∧
      Checksum256.pack ⟨List.replicate 32 0⟩ = List.replicate 32 0 ∧
      Checksum256.unpack (Checksum256.pack ⟨List.replicate 32 0⟩)
        = some (⟨List.replicate 32 0⟩, 32)) ∧
    (∀ s : List Char, s.length ≠ 64 → Checksum256.from_hex s = none) := by
  constructor
  · exact ⟨by decide, rfl, by decide⟩
  · intro s h
    rw [Checksum256.from_hex, if_neg h]

/-- Witness for C8: a single-character hex string is rejected. -/
theorem C8_checksum256_from_hex_witness :
    (['a'] : List Char).length ≠ 64 ∧ Checksum256.from_hex ['a'] = none :=
  ⟨by decide, C8_checksum256_from_hex.2 ['a'] (by decide)⟩

/-- C9: every `Signature` reachable through `default`, `from_hex` or a
successful `unpack` carries type byte 0, and `pack` of such a value
writes 0x00 first. -/
theorem C9_signature_type_invariant :
    Signature.default.ty = 0 ∧
    (∀ (s : List Char) (sig : Signature), Signature.from_hex s = some sig → sig.ty = 0) ∧
    (∀ (raw : List Nat) (sig : Signature) (c : Nat),
      Signature.unpack raw = some (sig, c) → sig.ty = 0) ∧
    (∀ sig : Signature, sig.ty = 0 → (Signature.pack sig).head? = some 0) := by
  refine ⟨rfl, ?_, ?_, ?_⟩
  · intro s sig h
    rw [Signature.from_hex] at h
    split at h
    · cases hd : decode_hex s with
      | none => rw [hd] at h; exact absurd h (by simp)
      | some d =>
          rw [hd] at h
          simp only [Option.map_some', Option.some.injEq] at h
          rw [← h]
    · exact absurd h (by simp)
  · intro raw sig c h
    rw [Signature.unpack.eq_def] at h
    split at h
    · split at h
      · exact absurd h (by simp)
      · next t rest =>
          split at h
          · next ht =>
              simp only [Option.some.injEq, Prod.mk.injEq] at h
              rw [← h.1, ht]
          · exact absurd h (by simp)
    · exact absurd h (by simp)
  · intro sig h0
    simp [Signature.pack, packLE_one, h0]

/-- Witness for C9 at concrete signatures from each constructor. -/
theorem C9_signature_type_invariant_witness :
    (Signature.from_hex (List.replicate 130 '0') = some ⟨0, List.replicate 65 0⟩ ∧
      (⟨0, List.replicate 65 0⟩ : Signature).ty = 0) ∧
    (Signature.unpack (0 :: List.replicate 65 7)
        = some (⟨0, List.replicate 65 7⟩, 66) ∧
      (⟨0, List.replicate 65 7⟩ : Signature).ty = 0) ∧
    (Signature.default.ty = 0 ∧ (Signature.pack Signature.default).head? = some 0) :=
  ⟨⟨by decide, C9_signature_type_invariant.2.1 (List.replicate 130 '0')
      ⟨0, List.replicate 65 0⟩ (by decide)⟩,
    ⟨by decide, C9_signature_type_invariant.2.2.1 (0 :: List.replicate 65 7)
      ⟨0, List.replicate 65 7⟩ 66 (by decide)⟩,
    ⟨C9_signature_type_invariant.1,
      C9_signature_type_invariant.2.2.2 _ C9_signature_type_invariant.1⟩⟩

/-- C10: the upfront bound of `PublicKey::unpack` is only 34 bytes, yet
a tag-2 buffer too short for a complete WebAuthn payload (34 bytes, or
any buffer whose payload decode aborts) is rejected by the nested
fields' own checks, while every well-formed WebAuthn encoding takes at
least 36 bytes. -/
theorem C10_webauthn_short_buffer :
    (∀ rest : List Nat, rest.length = 33 → PublicKey.unpack (2 :: rest) = none) ∧
    (∀ rest : List Nat, WebAuthNPublicKey.unpack rest = none →
      PublicKey.unpack (2 :: rest) = none) ∧
    (∀ w : WebAuthNPublicKey, w.Wf → 36 ≤ (PublicKey.pack (.WebAuth w)).length) := by
  refine ⟨?_, ?_, ?_⟩
  · intro rest h33
    have hle : 34 ≤ (2 :: rest).length := by simp [h33]
    rw [PublicKey.unpack.eq_def, if_pos hle]
    have hecc : ECCPublicKey.unpack rest = some (⟨rest.take 33⟩, 33) := by
      simp [ECCPublicKey.unpack, h33]
    have hdrop : rest.drop 33 = [] := List.drop_eq_nil_of_le (by omega)
    simp [WebAuthNPublicKey.unpack, h33, hecc, hdrop, UserPresence.unpack]
  · intro rest hw
    rw [PublicKey.unpack.eq_def]
    split
    · simp [hw]
    · rfl
  · intro w h
    have hwl := webAuthN_pack_length w h
    have hpos : 0 < (packVaruint (w.rpid.length % 2 ^ 32)).length :=
      packVaruint_length_pos _
    have hl : (PublicKey.pack (.WebAuth w)).length = 1 + (34 + sizeStr w.rpid) := by
      simp [PublicKey.pack, packLE_one, hwl]
      omega
    rw [hl, sizeStr]
    omega

/-- Witness for C10: a 34-byte tag-2 buffer aborts, the empty payload
aborts and propagates, and a minimal well-formed WebAuthn key packs to
at least 36 bytes. -/
theorem C10_webauthn_short_buffer_witness :
    ((List.replicate 33 (0 : Nat)).length = 33 ∧
      PublicKey.unpack (2 :: List.replicate 33 0) = none) ∧
    (WebAuthNPublicKey.unpack ([] : List Nat) = none ∧
      PublicKey.unpack [2] = none) ∧
    ((⟨⟨List.replicate 33 0⟩, .None, []⟩ : WebAuthNPublicKey).Wf ∧
      36 ≤ (PublicKey.pack (.WebAuth ⟨⟨List.replicate 33 0⟩, .None, []⟩)).length) :=
  ⟨⟨by simp, C10_webauthn_short_buffer.1 _ (by simp)⟩,
    ⟨by decide, C10_webauthn_short_buffer.2.1 [] (by decide)⟩,
    ⟨by norm_num [WebAuthNPublicKey.Wf, ECCPublicKey.Wf],
      C10_webauthn_short_buffer.2.2 _
        (by norm_num [WebAuthNPublicKey.Wf, ECCPublicKey.Wf])⟩⟩

end RsCdk
